import Mathlib

/-!
Verification of the cutting-stock optimizer (app7.py) and the banding
aggregation (app9.py) of the Smartcc repository.

Shallow embedding conventions:
* Python floats carrying millimeter dimensions are modelled as `ℚ`.
* The mutable `pecas_disponiveis` pool that the strip builders pop from is
  modelled by explicit state passing: every builder returns the parts it
  placed together with the remaining pool (`restantes`), in order.
* `OtimizadorCortes.otimizar` runs `while pecas_ordenadas:` with no bound;
  a sheet that places no part leaves the pool unchanged, so the Python loop
  can run forever.  The embedding `otimizarLoop` therefore takes explicit
  fuel (one unit per sheet built); the Python call terminates exactly when
  some fuel empties the pool.
* The inner sheet loop (`_criar_chapa_otimizada`) continues only after a
  strip that placed at least one part, and placing a part removes it from
  the pool, so that loop performs at most `pool.length` iterations before
  the pool empties; `chapaLoop` is given fuel `pool.length + 1`, which is
  enough for it to reach the same fixpoint the Python loop reaches.
-/

attribute [local semireducible] Rat.add Rat.mul Rat.sub Rat.inv

/-- `Peca` (app7.py lines 25-61): a part to be cut. -/
structure Peca where
  nome : String
  comprimento : ℚ
  largura : ℚ
  quantidade : ℕ
  fita_borda_comp1 : Bool := false
  fita_borda_comp2 : Bool := false
  fita_borda_larg1 : Bool := false
  fita_borda_larg2 : Bool := false
  respeitar_veio : Bool := false
deriving DecidableEq

/-- `Peca.area` (app7.py line 38). -/
def Peca.area (p : Peca) : ℚ := p.comprimento * p.largura

/-- `Peca.comprimento_fita` (app7.py lines 41-52): total edge-banding length
needed by one unit of the part, in mm. -/
def Peca.comprimento_fita (p : Peca) : ℚ :=
  (if p.fita_borda_comp1 then p.comprimento else 0) +
  (if p.fita_borda_comp2 then p.comprimento else 0) +
  (if p.fita_borda_larg1 then p.largura else 0) +
  (if p.fita_borda_larg2 then p.largura else 0)

/-- `Peca.tem_fita` (app7.py lines 54-61). -/
def Peca.tem_fita (p : Peca) : Bool :=
  p.fita_borda_comp1 || p.fita_borda_comp2 || p.fita_borda_larg1 || p.fita_borda_larg2

/-- `PecaPosicionada` (app7.py lines 64-78): a part bound to a position. -/
structure PecaPosicionada where
  peca : Peca
  x : ℚ
  y : ℚ
  rotacionada : Bool := false
deriving DecidableEq

/-- `PecaPosicionada.comprimento_final` (app7.py lines 72-74). -/
def PecaPosicionada.comprimento_final (p : PecaPosicionada) : ℚ :=
  if p.rotacionada then p.peca.largura else p.peca.comprimento

/-- `PecaPosicionada.largura_final` (app7.py lines 76-78). -/
def PecaPosicionada.largura_final (p : PecaPosicionada) : ℚ :=
  if p.rotacionada then p.peca.comprimento else p.peca.largura

/-- `Faixa` (app7.py lines 81-94): a horizontal strip. -/
structure Faixa where
  y_inicio : ℚ
  altura : ℚ
  pecas : List PecaPosicionada
deriving DecidableEq

/-- `Faixa.espaco_usado` (app7.py lines 88-94). -/
def Faixa.espaco_usado (f : Faixa) (kerf : ℚ) : ℚ :=
  if f.pecas = [] then 0
  else
    (f.pecas.map PecaPosicionada.comprimento_final).sum +
      (if 1 < f.pecas.length then kerf * ((f.pecas.length - 1 : ℕ) : ℚ) else 0)

/-- `Chapa` (app7.py lines 97-119): a sheet with placed parts. -/
structure Chapa where
  numero : ℕ
  comprimento : ℚ
  largura : ℚ
  espessura : ℚ
  kerf : ℚ
  faixas : List Faixa
deriving DecidableEq

/-- `Chapa.calcular_utilizacao` (app7.py lines 107-115): utilization
percentage, from the parts' original (un-rotated) dimensions. -/
def Chapa.calcular_utilizacao (c : Chapa) : ℚ :=
  let area_total := c.comprimento * c.largura
  let area_usada :=
    (c.faixas.map fun f =>
      (f.pecas.map fun p => p.peca.comprimento * p.peca.largura).sum).sum
  if area_total > 0 then area_usada / area_total * 100 else 0

/-- `Chapa.calcular_desperdicio` (app7.py lines 117-119). -/
def Chapa.calcular_desperdicio (c : Chapa) : ℚ :=
  100 - c.calcular_utilizacao

/-- Number of placed parts on a sheet (used to state conservation). -/
def Chapa.totalPecas (c : Chapa) : ℕ :=
  (c.faixas.map fun f => f.pecas.length).sum

/-- The running state of one strip-building pass: the strip height fixed so
far (0 while unset), the horizontal cursor, the parts placed so far, and the
parts left in the pool (the elements `pop(i)` did not remove, in order). -/
structure FaixaParcial where
  altura_faixa : ℚ
  x_atual : ℚ
  pecas_faixa : List PecaPosicionada
  restantes : List Peca
deriving DecidableEq

/-- First pass of `_criar_faixa_otimizada` (app7.py lines 200-236): scan the
pool in order; a part whose width does not fit below `lc` is skipped; the
first part surviving that check fixes the strip height; a part within the
5mm tolerance of the height that also fits horizontally is placed at the
cursor and removed from the pool. -/
def faixaPrimeiraPassagem (cc lc kerf y_inicio : ℚ) (altura_faixa x_atual : ℚ)
    (pecas_faixa : List PecaPosicionada) : List Peca → FaixaParcial
  | [] => ⟨altura_faixa, x_atual, pecas_faixa, []⟩
  | peca :: ps =>
    if y_inicio + peca.largura > lc then
      let r := faixaPrimeiraPassagem cc lc kerf y_inicio altura_faixa x_atual pecas_faixa ps
      { r with restantes := peca :: r.restantes }
    else
      let altura1 := if altura_faixa = 0 then peca.largura else altura_faixa
      let espaco_necessario :=
        if pecas_faixa.isEmpty then peca.comprimento else peca.comprimento + kerf
      if |peca.largura - altura1| ≤ 5 ∧ x_atual + espaco_necessario ≤ cc then
        faixaPrimeiraPassagem cc lc kerf y_inicio altura1
          (x_atual + peca.comprimento + kerf)
          (pecas_faixa ++ [⟨peca, x_atual, y_inicio, false⟩]) ps
      else
        let r := faixaPrimeiraPassagem cc lc kerf y_inicio altura1 x_atual pecas_faixa ps
        { r with restantes := peca :: r.restantes }

/-- Second (gap-fill) pass of `_criar_faixa_otimizada` (app7.py lines
238-263): place any remaining part whose length fits in the space left and
whose width is at most the strip height. -/
def faixaSegundaPassagem (cc kerf y_inicio altura_faixa : ℚ) (x_atual : ℚ)
    (pecas_faixa : List PecaPosicionada) : List Peca → FaixaParcial
  | [] => ⟨altura_faixa, x_atual, pecas_faixa, []⟩
  | peca :: ps =>
    if peca.comprimento ≤ cc - x_atual ∧ peca.largura ≤ altura_faixa then
      faixaSegundaPassagem cc kerf y_inicio altura_faixa
        (x_atual + peca.comprimento + kerf)
        (pecas_faixa ++ [⟨peca, x_atual, y_inicio, false⟩]) ps
    else
      let r := faixaSegundaPassagem cc kerf y_inicio altura_faixa x_atual pecas_faixa ps
      { r with restantes := peca :: r.restantes }

/-- `OtimizadorCortes._criar_faixa_otimizada` (app7.py lines 194-269): the
defining pass, then — when the cursor left room and a height was fixed — the
gap-fill pass over the shrunken pool. -/
def criar_faixa_otimizada (cc lc kerf : ℚ) (y_inicio : ℚ) (pool : List Peca) :
    Faixa × List Peca :=
  let r1 := faixaPrimeiraPassagem cc lc kerf y_inicio 0 0 [] pool
  if r1.x_atual < cc ∧ r1.altura_faixa > 0 then
    let r2 := faixaSegundaPassagem cc kerf y_inicio r1.altura_faixa r1.x_atual
      r1.pecas_faixa r1.restantes
    (⟨y_inicio, r1.altura_faixa, r2.pecas_faixa⟩, r2.restantes)
  else
    (⟨y_inicio, r1.altura_faixa, r1.pecas_faixa⟩, r1.restantes)

/-- The single pass of `_criar_faixa_com_rotacao` (app7.py lines 277-319):
grain-locked parts are skipped outright; other parts are tested with length
and width swapped and, when accepted, placed with `rotacionada := true`. -/
def faixaComRotacaoPassagem (cc lc kerf y_inicio : ℚ) (altura_faixa x_atual : ℚ)
    (pecas_faixa : List PecaPosicionada) : List Peca → FaixaParcial
  | [] => ⟨altura_faixa, x_atual, pecas_faixa, []⟩
  | peca :: ps =>
    if peca.respeitar_veio then
      let r := faixaComRotacaoPassagem cc lc kerf y_inicio altura_faixa x_atual pecas_faixa ps
      { r with restantes := peca :: r.restantes }
    else
      let comp_rotacionado := peca.largura
      let larg_rotacionado := peca.comprimento
      if y_inicio + larg_rotacionado > lc then
        let r := faixaComRotacaoPassagem cc lc kerf y_inicio altura_faixa x_atual pecas_faixa ps
        { r with restantes := peca :: r.restantes }
      else
        let altura1 := if altura_faixa = 0 then larg_rotacionado else altura_faixa
        let espaco_necessario :=
          if pecas_faixa.isEmpty then comp_rotacionado else comp_rotacionado + kerf
        if |larg_rotacionado - altura1| ≤ 5 ∧ x_atual + espaco_necessario ≤ cc then
          faixaComRotacaoPassagem cc lc kerf y_inicio altura1
            (x_atual + comp_rotacionado + kerf)
            (pecas_faixa ++ [⟨peca, x_atual, y_inicio, true⟩]) ps
        else
          let r := faixaComRotacaoPassagem cc lc kerf y_inicio altura1 x_atual pecas_faixa ps
          { r with restantes := peca :: r.restantes }

/-- `OtimizadorCortes._criar_faixa_com_rotacao` (app7.py lines 271-325). -/
def criar_faixa_com_rotacao (cc lc kerf : ℚ) (y_inicio : ℚ) (pool : List Peca) :
    Faixa × List Peca :=
  let r := faixaComRotacaoPassagem cc lc kerf y_inicio 0 0 [] pool
  (⟨y_inicio, r.altura_faixa, r.pecas_faixa⟩, r.restantes)

/-- The `while y_atual < largura_chapa and pecas_disponiveis:` loop of
`_criar_chapa_otimizada` (app7.py lines 170-183), with fuel: one unit per
strip.  A continuing iteration appends a strip holding at least one part,
which the strip builder removed from the pool, so `pool.length + 1` units of
fuel always reach the loop's own exit (see the header comment). -/
def chapaLoop (cc lc kerf : ℚ) : ℕ → ℚ → List Peca → List Faixa × List Peca
  | 0, _, pool => ([], pool)
  | fuel + 1, y_atual, pool =>
    if y_atual < lc ∧ pool ≠ [] then
      let r := criar_faixa_otimizada cc lc kerf y_atual pool
      if r.1.pecas = [] then
        let r2 := criar_faixa_com_rotacao cc lc kerf y_atual pool
        if r2.1.pecas = [] then ([], pool)
        else
          let next := chapaLoop cc lc kerf fuel (y_atual + r2.1.altura + kerf) r2.2
          (r2.1 :: next.1, next.2)
      else
        let next := chapaLoop cc lc kerf fuel (y_atual + r.1.altura + kerf) r.2
        (r.1 :: next.1, next.2)
    else ([], pool)

/-- `OtimizadorCortes._criar_chapa_otimizada` (app7.py lines 165-192). -/
def criar_chapa_otimizada (cc lc esp kerf : ℚ) (numero : ℕ) (pool : List Peca) :
    Chapa × List Peca :=
  let r := chapaLoop cc lc kerf (pool.length + 1) 0 pool
  (⟨numero, cc, lc, esp, kerf, r.1⟩, r.2)

/-- The `while pecas_ordenadas:` loop of `otimizar` (app7.py lines 157-161),
with fuel: one unit per sheet.  The Python loop terminates exactly when some
fuel value makes the returned pool empty; a sheet that places nothing leaves
the pool untouched and Python keeps looping forever. -/
def otimizarLoop (cc lc esp kerf : ℚ) : ℕ → ℕ → List Peca → List Chapa × List Peca
  | 0, _, pool => ([], pool)
  | fuel + 1, numero_chapa, pool =>
    if pool = [] then ([], [])
    else
      let r := criar_chapa_otimizada cc lc esp kerf numero_chapa pool
      let next := otimizarLoop cc lc esp kerf fuel (numero_chapa + 1) r.2
      (r.1 :: next.1, next.2)

/-- Quantity expansion of `otimizar` (app7.py lines 144-147): one deep copy
per unit of quantity, in input order (the copy keeps every field, including
`quantidade`). -/
def expandirPecas (pecas : List Peca) : List Peca :=
  (pecas.map fun p => List.replicate p.quantidade p).flatten

/-- Stable descending insertion by area: the new part goes before the first
part whose area is not larger, so parts of equal area keep input order, as
Python's stable `sorted(..., key=area, reverse=True)` does. -/
def insereOrdenadaPorArea (p : Peca) : List Peca → List Peca
  | [] => [p]
  | q :: qs => if q.area > p.area then q :: insereOrdenadaPorArea p qs else p :: q :: qs

/-- The `sorted(pecas_expandidas, key=lambda p: p.area(), reverse=True)` of
app7.py lines 150-154 (stable, descending by area). -/
def ordenarPorAreaDesc (l : List Peca) : List Peca :=
  l.foldr insereOrdenadaPorArea []

/-- `OtimizadorCortes` (app7.py lines 126-136): the parameters given to
`__init__` plus the `chapas` list the instance accumulates. -/
structure OtimizadorCortes where
  comprimento_chapa : ℚ
  largura_chapa : ℚ
  espessura : ℚ
  kerf : ℚ
  sentido_veio : String := "Horizontal (no comprimento)"
  chapas : List Chapa := []
deriving DecidableEq

/-- `OtimizadorCortes.otimizar` (app7.py lines 138-163): expand, sort, loop
building sheets numbered from 1, appending each to `self.chapas`, and return
`self.chapas`.  The extra results are the updated instance state and the
pool left when the fuel ran out (empty exactly when Python's loop ends). -/
def OtimizadorCortes.otimizar (o : OtimizadorCortes) (pecas : List Peca)
    (fuel : ℕ) : List Chapa × OtimizadorCortes × List Peca :=
  let pecas_ordenadas := ordenarPorAreaDesc (expandirPecas pecas)
  let r := otimizarLoop o.comprimento_chapa o.largura_chapa o.espessura o.kerf
    fuel 1 pecas_ordenadas
  (o.chapas ++ r.1, { o with chapas := o.chapas ++ r.1 }, r.2)

/-- The banding-type data `processar_otimizacao_por_tipo` reads (app9.py
lines 728-739): per-roll length in meters and per-roll price. -/
structure TipoFita where
  comprimento_rolo : ℚ
  preco_rolo : ℚ
deriving DecidableEq

/-- The quantity expansion of app9.py lines 680-692: one `Peca` with
`quantidade = 1` per unit. -/
def expandirPecasUnitarias (pecas : List Peca) : List Peca :=
  (pecas.map fun p => List.replicate p.quantidade { p with quantidade := 1 }).flatten

/-- app9.py lines 719-724: the banding length in mm totalled over the
expanded unit parts. -/
def totalFitaMM (pecas : List Peca) : ℚ :=
  ((expandirPecasUnitarias pecas).map Peca.comprimento_fita).sum

/-- app9.py line 731: `rolos = -(-total_m // comprimento_rolo)`, Python's
floor division spelled as a floor on rationals. -/
def rolosFita (total_m comprimento_rolo : ℚ) : ℤ :=
  -(⌊(-total_m) / comprimento_rolo⌋)

/-- app9.py lines 728-732: meters, rolls and cost for one banding type. -/
def custoFita (total_mm : ℚ) (tf : TipoFita) : ℚ :=
  let total_m := total_mm / 1000
  let rolos := rolosFita total_m tf.comprimento_rolo
  (rolos : ℚ) * tf.preco_rolo

/-- Axis-aligned bounding boxes of two placed parts share an interior point
(each box at its position with its rotation-adjusted dimensions). -/
def PecaPosicionada.intersecta (p q : PecaPosicionada) : Prop :=
  p.x < q.x + q.comprimento_final ∧ q.x < p.x + p.comprimento_final ∧
  p.y < q.y + q.largura_final ∧ q.y < p.y + p.largura_final

instance (p q : PecaPosicionada) : Decidable (p.intersecta q) := by
  unfold PecaPosicionada.intersecta; infer_instance

/-! ### Concrete inputs used by the claims -/

/-- Scenario A of the spec: 4 units of a non-grain-locked 800×300mm part. -/
def pecaScenA : Peca := ⟨"P", 800, 300, 4, false, false, false, false, false⟩

/-- Scenario A sheet: 2750×1840mm, thickness 15mm, kerf 3mm. -/
def otimScenA : OtimizadorCortes := ⟨2750, 1840, 15, 3, "Sem veio (MDF)", []⟩

/-- The sheets Scenario A produces (fuel 2 is more than enough: the run
builds one sheet and empties the pool). -/
def scenARun : List Chapa := (otimScenA.otimizar [pecaScenA] 2).1

/-- Scenario B of the spec: one grain-locked 3000×300mm part, longer than
the sheet in its only permitted orientation. -/
def pecaGrande : Peca := ⟨"G", 3000, 300, 1, false, false, false, false, true⟩

/-- Scenario B sheet: 2750×1840mm, thickness 15mm, kerf 3mm. -/
def otimScenB : OtimizadorCortes := ⟨2750, 1840, 15, 3, "Horizontal (no comprimento)", []⟩

/-- Overlap scenario (claim C3): one 1100×300 part, three 400×320 parts and
one 90×305 part on a 1300×1000mm sheet with kerf 3mm. -/
def pecaLonga : Peca := ⟨"A", 1100, 300, 1, false, false, false, false, false⟩

/-- The three 400×320mm parts of the overlap scenario. -/
def pecaMedia : Peca := ⟨"E", 400, 320, 3, false, false, false, false, false⟩

/-- The 90×305mm part of the overlap scenario: it joins the first strip
through the 5mm tolerance and overhangs it by 5mm. -/
def pecaEstreita : Peca := ⟨"B", 90, 305, 1, false, false, false, false, false⟩

/-- The overlap scenario's optimizer. -/
def otimSobreposicao : OtimizadorCortes := ⟨1300, 1000, 15, 3, "Sem veio (MDF)", []⟩

/-- The sheets of the overlap scenario (one sheet; fuel 2 empties the pool). -/
def sobreposicaoRun : List Chapa :=
  (otimSobreposicao.otimizar [pecaLonga, pecaMedia, pecaEstreita] 2).1

/-- A part that fits the sheet only when rotated (used for the grain and
grain-mode claims): 250×800mm on a 1000×300mm sheet. -/
def pecaRotavel : Peca := ⟨"R", 250, 800, 1, false, false, false, false, false⟩

/-- A width-locked-mode optimizer for a 1000×300mm sheet. -/
def otimTravado : OtimizadorCortes := ⟨1000, 300, 15, 3, "Vertical (na largura)", []⟩

/-- Tolerance scenario (claim C6): a 900×300 part fixes a 300mm strip on a
1000×1000mm sheet; a 90×100 part is gap-filled into that strip. -/
def pecaDefinidora : Peca := ⟨"A", 900, 300, 1, false, false, false, false, false⟩

/-- The 90×100mm part the gap-fill pass places into the 300mm strip. -/
def pecaPequena : Peca := ⟨"B", 90, 100, 1, false, false, false, false, false⟩

/-- The tolerance scenario's optimizer: 1000×1000mm sheet, kerf 3mm. -/
def otimTolerancia : OtimizadorCortes := ⟨1000, 1000, 15, 3, "Sem veio (MDF)", []⟩

/-- The sheets of the tolerance scenario. -/
def toleranciaRun : List Chapa := (otimTolerancia.otimizar [pecaDefinidora, pecaPequena] 2).1

/-! ### C3: non-overlap fails on the code -/

/-- C3 (code_bug evaluation): the non-overlap claim fails on the code.  In
the overlap scenario the 90×305mm part joins the first strip (height 300mm)
through the 5mm tolerance, so it overhangs the strip by 5mm, while the next
strip starts only `altura + kerf = 303mm` further down; the third 400×320mm
part of the second strip is placed under it, and the two parts' axis-aligned
bounding boxes share the region (1103,1193)×(303,305). -/
theorem sobreposicao_pecas_existe :
    ∃ c ∈ sobreposicaoRun, ∃ f1 ∈ c.faixas, ∃ f2 ∈ c.faixas,
      ∃ p ∈ f1.pecas, ∃ q ∈ f2.pecas, p ≠ q ∧ p.intersecta q := by decide

/-! ### C5: the grain-orientation mode is never consulted -/

/-- C5 counterexample: under the width-locking mode `"Vertical (na
largura)"` the optimizer still rotates a part — the 250×800mm part only fits
the 1000×300mm sheet rotated, and the rotation fallback runs regardless of
`sentido_veio`. -/
theorem modo_veio_contraexemplo :
    ∃ c ∈ (otimTravado.otimizar [pecaRotavel] 1).1, ∃ f ∈ c.faixas,
      ∃ p ∈ f.pecas, p.rotacionada = true := by decide

/-- C5 amended: `sentido_veio` is stored by `__init__` but never read by the
placement algorithm, so the sheets returned by `otimizar` are identical for
every grain-orientation mode; only the per-part `respeitar_veio` flag
restrains rotation. -/
theorem modo_veio_sem_efeito (cc lc esp kerf : ℚ) (v v' : String)
    (ch : List Chapa) (pecas : List Peca) (fuel : ℕ) :
    (OtimizadorCortes.otimizar ⟨cc, lc, esp, kerf, v, ch⟩ pecas fuel).1 =
      (OtimizadorCortes.otimizar ⟨cc, lc, esp, kerf, v', ch⟩ pecas fuel).1 := rfl

/-! ### C6: the 5mm tolerance invariant fails in the gap-fill pass -/

/-- C6 counterexample: in the tolerance scenario the gap-fill pass places
the 90×100mm part into the strip of height 300mm, and
`|100 - 300| = 200 > 5`. -/
theorem tolerancia_contraexemplo :
    ∃ c ∈ toleranciaRun, ∃ f ∈ c.faixas, ∃ p ∈ f.pecas,
      ¬ |p.largura_final - f.altura| ≤ 5 := by decide

/-! ### C8: Scenario A fits in one sheet but needs two strips -/

/-- C8 counterexample: in Scenario A the sole returned sheet holds two
strips, not one — after three 800mm parts the cursor is at 2409mm and the
defining pass requires `2409 + 800 + 3 ≤ 2750`, which fails, so the fourth
unit starts a second strip. -/
theorem scenA_contraexemplo :
    ¬ (scenARun.map fun c => c.faixas.length) = [1] := by decide

/-- C8 amended: Scenario A (2750×1840mm sheet, kerf 3mm, 4 units of a
non-grain-locked 800×300mm part) returns exactly one sheet with two strips
holding 3 and 1 units, all 4 units placed and none left over, and the
sheet's utilization is (4×800×300)/(2750×1840)×100 = 4800/253 ≈ 18.97%,
which rounds to the claimed ≈ 19.0%. -/
theorem scenA_uma_chapa_duas_faixas :
    (scenARun.map fun c => c.faixas.map fun f => f.pecas.length) = [[3, 1]] ∧
    (otimScenA.otimizar [pecaScenA] 2).2.2 = [] ∧
    (scenARun.map Chapa.calcular_utilizacao) = [4800 / 253] := by decide

/-! ### C1 and C2: on an unplaceable part the optimizer loops forever,
with no rejected-parts outcome -/

/-- One sheet-building attempt on the Scenario B pool: the 3000×300mm part
passes the width check (it even fixes a 300mm strip height) but never fits
horizontally, rotation is forbidden by its grain lock, so the sheet comes
back with no strips and the pool untouched. -/
theorem criar_chapa_scenB (n : ℕ) :
    criar_chapa_otimizada 2750 1840 15 3 n [pecaGrande] =
      (⟨n, 2750, 1840, 15, 3, []⟩, [pecaGrande]) := rfl

/-- No amount of fuel changes the Scenario B pool: every iteration of the
`while pecas_ordenadas:` loop appends one empty sheet and leaves the pool as
it was. -/
theorem otimizarLoop_scenB (fuel : ℕ) : ∀ numero : ℕ,
    otimizarLoop 2750 1840 15 3 fuel numero [pecaGrande] =
      ((List.range' numero fuel).map fun n => ⟨n, 2750, 1840, 15, 3, []⟩,
        [pecaGrande]) := by
  induction fuel with
  | zero => intro n; rfl
  | succ f ih =>
      intro n
      have h : otimizarLoop 2750 1840 15 3 (f + 1) n [pecaGrande] =
          ((⟨n, 2750, 1840, 15, 3, []⟩ : Chapa) ::
              (otimizarLoop 2750 1840 15 3 f (n + 1) [pecaGrande]).1,
            (otimizarLoop 2750 1840 15 3 f (n + 1) [pecaGrande]).2) := rfl
      rw [h, ih (n + 1), List.range'_succ, List.map_cons]

/-- C1 (code_bug evaluation): conservation fails on the code.  On the
Scenario B input Σ quantity = 1, yet however many iterations the
`while pecas_ordenadas:` loop performs, zero parts are placed, the pool is
still the whole input, and `otimizar` has no rejected-parts outcome at all —
it never returns on this input. -/
theorem conservacao_viola_scenB (fuel : ℕ) :
    ([pecaGrande].map Peca.quantidade).sum = 1 ∧
    ((otimScenB.otimizar [pecaGrande] fuel).1.map Chapa.totalPecas).sum = 0 ∧
    (otimScenB.otimizar [pecaGrande] fuel).2.2 = [pecaGrande] := by
  have h : otimScenB.otimizar [pecaGrande] fuel =
      ((otimizarLoop 2750 1840 15 3 fuel 1 [pecaGrande]).1,
        ⟨2750, 1840, 15, 3, "Horizontal (no comprimento)",
          (otimizarLoop 2750 1840 15 3 fuel 1 [pecaGrande]).1⟩,
        (otimizarLoop 2750 1840 15 3 fuel 1 [pecaGrande]).2) := rfl
  rw [h, otimizarLoop_scenB fuel 1]
  refine ⟨rfl, ?_, rfl⟩
  have hz : (Chapa.totalPecas ∘ fun n : ℕ =>
      (⟨n, 2750, 1840, 15, 3, []⟩ : Chapa)) = fun _ => 0 := rfl
  rw [List.map_map, hz, List.map_const', List.sum_replicate, smul_zero]

/-- C2 (code_bug evaluation): the optimizer does not terminate on every
valid input.  On the Scenario B input every sheet-building attempt leaves
the pool untouched, so after any number of loop iterations the
`while pecas_ordenadas:` guard still holds: the Python call never returns,
and no rejected-parts set is ever surfaced (the return carries none). -/
theorem terminacao_viola_scenB (fuel : ℕ) :
    (otimScenB.otimizar [pecaGrande] fuel).2.2 = [pecaGrande] := by
  have h : (otimScenB.otimizar [pecaGrande] fuel).2.2 =
      (otimizarLoop 2750 1840 15 3 fuel 1 [pecaGrande]).2 := rfl
  rw [h, otimizarLoop_scenB fuel 1]

/-! ### C7: banding aggregation -/

/-- `comprimento_fita` never reads `quantidade`, so the app9 per-unit copies
carry the same banding length as the original part. -/
theorem comprimento_fita_quantidade (p : Peca) (n : ℕ) :
    Peca.comprimento_fita { p with quantidade := n } = p.comprimento_fita := rfl

/-- C7: banding aggregation.  The total required length is the per-unit
banding length (one part dimension per active edge flag) summed over every
unit, i.e. Σ quantity × per-part banding length; the roll count
`-(-total_m // comprimento_rolo)` is exactly the ceiling of
`total_mm / 1000 / roll_length`, so rounding is always upward; cost is
rolls × price per roll; and 51m of banding over 50m rolls needs 2 rolls. -/
theorem fita_agregacao :
    (∀ pecas : List Peca, totalFitaMM pecas =
      (pecas.map fun p => (p.quantidade : ℚ) * p.comprimento_fita).sum) ∧
    (∀ total_m comprimento_rolo : ℚ,
      rolosFita total_m comprimento_rolo = ⌈total_m / comprimento_rolo⌉) ∧
    (∀ (total_mm : ℚ) (tf : TipoFita),
      custoFita total_mm tf =
        (⌈total_mm / 1000 / tf.comprimento_rolo⌉ : ℚ) * tf.preco_rolo) ∧
    rolosFita 51 50 = 2 := by
  have hceil : ∀ total_m comprimento_rolo : ℚ,
      rolosFita total_m comprimento_rolo = ⌈total_m / comprimento_rolo⌉ := by
    intro t r
    rw [rolosFita, neg_div, Int.floor_neg, neg_neg]
  refine ⟨?_, hceil, ?_, by decide⟩
  · intro pecas
    induction pecas with
    | nil => rfl
    | cons p ps ih =>
        have h : totalFitaMM (p :: ps) =
            ((List.replicate p.quantidade
                ({ p with quantidade := 1 } : Peca)).map Peca.comprimento_fita).sum +
              totalFitaMM ps := by
          rw [totalFitaMM, expandirPecasUnitarias, List.map_cons, List.flatten_cons,
            List.map_append, List.sum_append]
          rfl
        rw [h, ih, List.map_cons, List.map_replicate, List.sum_replicate,
          comprimento_fita_quantidade, nsmul_eq_mul, List.sum_cons]
  · intro total_mm tf
    show (rolosFita (total_mm / 1000) tf.comprimento_rolo : ℚ) * tf.preco_rolo = _
    rw [hceil]

/-! ### C9: utilization and waste formulas -/

/-- C9: for a sheet with positive length and width, utilization is the sum
of the placed parts' original length × width over the sheet area, times 100
(the formula reads `p.peca.comprimento * p.peca.largura`, so rotation does
not change the accounted area), and waste is its complement to 100. -/
theorem metricas_chapa (c : Chapa) (hc : 0 < c.comprimento) (hl : 0 < c.largura) :
    c.calcular_utilizacao =
      ((c.faixas.map fun f =>
        (f.pecas.map fun p => p.peca.comprimento * p.peca.largura).sum).sum) /
        (c.comprimento * c.largura) * 100 ∧
    c.calcular_desperdicio = 100 - c.calcular_utilizacao := by
  constructor
  · show (if c.comprimento * c.largura > 0 then
        ((c.faixas.map fun f =>
          (f.pecas.map fun p => p.peca.comprimento * p.peca.largura).sum).sum) /
          (c.comprimento * c.largura) * 100 else 0) = _
    rw [if_pos (mul_pos hc hl)]
  · rfl

/-- A concrete sheet exercising `metricas_chapa`: one 50×50 part on a
100×100 sheet. -/
def chapaExemplo : Chapa :=
  ⟨1, 100, 100, 15, 3,
    [⟨0, 50, [⟨⟨"w", 50, 50, 1, false, false, false, false, false⟩, 0, 0, false⟩]⟩]⟩

/-- Witness for `metricas_chapa` at `chapaExemplo`. -/
theorem metricas_chapa_witness :
    chapaExemplo.calcular_utilizacao =
      ((chapaExemplo.faixas.map fun f =>
        (f.pecas.map fun p => p.peca.comprimento * p.peca.largura).sum).sum) /
        (chapaExemplo.comprimento * chapaExemplo.largura) * 100 ∧
    chapaExemplo.calcular_desperdicio = 100 - chapaExemplo.calcular_utilizacao :=
  metricas_chapa chapaExemplo (by decide) (by decide)

/-! ### C10: instance state accumulates across calls -/

/-- The sheets built by one run of the optimizer loop are numbered 1, 2, …
in order (`numero_chapa` starts at 1 and increments per sheet). -/
theorem otimizarLoop_numeros (cc lc esp kerf : ℚ) (fuel : ℕ) :
    ∀ (n : ℕ) (pool : List Peca),
      (otimizarLoop cc lc esp kerf fuel n pool).1.map Chapa.numero =
        List.range' n (otimizarLoop cc lc esp kerf fuel n pool).1.length := by
  induction fuel with
  | zero => intro n pool; rfl
  | succ f ih =>
      intro n pool
      by_cases hp : pool = []
      · subst hp
        rw [otimizarLoop, if_pos rfl]
        rfl
      · have h : otimizarLoop cc lc esp kerf (f + 1) n pool =
            ((criar_chapa_otimizada cc lc esp kerf n pool).1 ::
                (otimizarLoop cc lc esp kerf f (n + 1)
                  (criar_chapa_otimizada cc lc esp kerf n pool).2).1,
              (otimizarLoop cc lc esp kerf f (n + 1)
                (criar_chapa_otimizada cc lc esp kerf n pool).2).2) := by
          rw [otimizarLoop, if_neg hp]
        rw [h, List.map_cons, List.length_cons, List.range'_succ, ih (n + 1)]
        rfl

/-- C10: `otimizar` appends the sheets it builds to the instance's retained
`chapas` list and returns that whole list, so a second call on the same
instance returns every sheet of the first call (as a prefix) followed by the
new sheets, whose numbering restarts at 1. -/
theorem estado_acumulado (o : OtimizadorCortes) (pecas1 pecas2 : List Peca)
    (fuel1 fuel2 : ℕ) :
    ∃ novas : List Chapa,
      (((o.otimizar pecas1 fuel1).2.1).otimizar pecas2 fuel2).1 =
        (o.otimizar pecas1 fuel1).1 ++ novas ∧
      novas.map Chapa.numero = List.range' 1 novas.length := by
  refine ⟨(otimizarLoop o.comprimento_chapa o.largura_chapa o.espessura o.kerf
    fuel2 1 (ordenarPorAreaDesc (expandirPecas pecas2))).1, rfl, ?_⟩
  exact otimizarLoop_numeros _ _ _ _ fuel2 1 _

/-! ### Plumbing: the strip builders only keep parts of the pool, and every
sheet/strip in the output comes from one builder call on a sub-pool -/

/-- The defining pass leaves only parts of the pool in `restantes`. -/
theorem faixaPrimeiraPassagem_restantes (cc lc kerf y : ℚ) :
    ∀ (pool : List Peca) (a x : ℚ) (acc : List PecaPosicionada),
      ∀ p ∈ (faixaPrimeiraPassagem cc lc kerf y a x acc pool).restantes,
        p ∈ pool := by
  intro pool
  induction pool with
  | nil => intro a x acc p hp; exact absurd hp (List.not_mem_nil p)
  | cons q qs ih =>
      intro a x acc p hp
      rw [faixaPrimeiraPassagem] at hp
      by_cases h1 : y + q.largura > lc
      · rw [if_pos h1] at hp
        replace hp : p ∈ q :: (faixaPrimeiraPassagem cc lc kerf y a x acc qs).restantes := hp
        rcases List.mem_cons.1 hp with h | h
        · exact h ▸ List.mem_cons_self q qs
        · exact List.mem_cons_of_mem q (ih a x acc p h)
      · rw [if_neg h1] at hp
        set a1 := if a = 0 then q.largura else a with ha1
        by_cases h2 : |q.largura - a1| ≤ 5 ∧
            x + (if acc.isEmpty then q.comprimento else q.comprimento + kerf) ≤ cc
        · rw [if_pos h2] at hp
          exact List.mem_cons_of_mem q
            (ih a1 (x + q.comprimento + kerf) (acc ++ [⟨q, x, y, false⟩]) p hp)
        · rw [if_neg h2] at hp
          replace hp : p ∈ q :: (faixaPrimeiraPassagem cc lc kerf y a1 x acc qs).restantes := hp
          rcases List.mem_cons.1 hp with h | h
          · exact h ▸ List.mem_cons_self q qs
          · exact List.mem_cons_of_mem q (ih a1 x acc p h)

/-- The gap-fill pass leaves only parts of the pool in `restantes`. -/
theorem faixaSegundaPassagem_restantes (cc kerf y a : ℚ) :
    ∀ (pool : List Peca) (x : ℚ) (acc : List PecaPosicionada),
      ∀ p ∈ (faixaSegundaPassagem cc kerf y a x acc pool).restantes, p ∈ pool := by
  intro pool
  induction pool with
  | nil => intro x acc p hp; exact absurd hp (List.not_mem_nil p)
  | cons q qs ih =>
      intro x acc p hp
      rw [faixaSegundaPassagem] at hp
      by_cases h1 : q.comprimento ≤ cc - x ∧ q.largura ≤ a
      · rw [if_pos h1] at hp
        exact List.mem_cons_of_mem q
          (ih (x + q.comprimento + kerf) (acc ++ [⟨q, x, y, false⟩]) p hp)
      · rw [if_neg h1] at hp
        replace hp : p ∈ q :: (faixaSegundaPassagem cc kerf y a x acc qs).restantes := hp
        rcases List.mem_cons.1 hp with h | h
        · exact h ▸ List.mem_cons_self q qs
        · exact List.mem_cons_of_mem q (ih x acc p h)

/-- The rotation pass leaves only parts of the pool in `restantes`. -/
theorem faixaComRotacaoPassagem_restantes (cc lc kerf y : ℚ) :
    ∀ (pool : List Peca) (a x : ℚ) (acc : List PecaPosicionada),
      ∀ p ∈ (faixaComRotacaoPassagem cc lc kerf y a x acc pool).restantes,
        p ∈ pool := by
  intro pool
  induction pool with
  | nil => intro a x acc p hp; exact absurd hp (List.not_mem_nil p)
  | cons q qs ih =>
      intro a x acc p hp
      rw [faixaComRotacaoPassagem] at hp
      by_cases h0 : q.respeitar_veio = true
      · rw [if_pos h0] at hp
        replace hp : p ∈ q :: (faixaComRotacaoPassagem cc lc kerf y a x acc qs).restantes := hp
        rcases List.mem_cons.1 hp with h | h
        · exact h ▸ List.mem_cons_self q qs
        · exact List.mem_cons_of_mem q (ih a x acc p h)
      · rw [if_neg h0] at hp
        by_cases h1 : y + q.comprimento > lc
        · rw [if_pos h1] at hp
          replace hp : p ∈ q :: (faixaComRotacaoPassagem cc lc kerf y a x acc qs).restantes := hp
          rcases List.mem_cons.1 hp with h | h
          · exact h ▸ List.mem_cons_self q qs
          · exact List.mem_cons_of_mem q (ih a x acc p h)
        · rw [if_neg h1] at hp
          set a1 := if a = 0 then q.comprimento else a with ha1
          by_cases h2 : |q.comprimento - a1| ≤ 5 ∧
              x + (if acc.isEmpty then q.largura else q.largura + kerf) ≤ cc
          · rw [if_pos h2] at hp
            exact List.mem_cons_of_mem q
              (ih a1 (x + q.largura + kerf) (acc ++ [⟨q, x, y, true⟩]) p hp)
          · rw [if_neg h2] at hp
            replace hp : p ∈ q ::
                (faixaComRotacaoPassagem cc lc kerf y a1 x acc qs).restantes := hp
            rcases List.mem_cons.1 hp with h | h
            · exact h ▸ List.mem_cons_self q qs
            · exact List.mem_cons_of_mem q (ih a1 x acc p h)

/-- The non-rotating strip builder returns a sub-pool. -/
theorem criar_faixa_otimizada_restantes (cc lc kerf y : ℚ) (pool : List Peca) :
    ∀ p ∈ (criar_faixa_otimizada cc lc kerf y pool).2, p ∈ pool := by
  intro p hp
  rw [criar_faixa_otimizada] at hp
  set r1 := faixaPrimeiraPassagem cc lc kerf y 0 0 [] pool with hr1
  by_cases h : r1.x_atual < cc ∧ r1.altura_faixa > 0
  · rw [if_pos h] at hp
    replace hp : p ∈ (faixaSegundaPassagem cc kerf y r1.altura_faixa r1.x_atual
        r1.pecas_faixa r1.restantes).restantes := hp
    exact faixaPrimeiraPassagem_restantes cc lc kerf y pool 0 0 [] p
      (faixaSegundaPassagem_restantes cc kerf y r1.altura_faixa r1.restantes
        r1.x_atual r1.pecas_faixa p hp)
  · rw [if_neg h] at hp
    exact faixaPrimeiraPassagem_restantes cc lc kerf y pool 0 0 [] p hp

/-- The rotating strip builder returns a sub-pool. -/
theorem criar_faixa_com_rotacao_restantes (cc lc kerf y : ℚ) (pool : List Peca) :
    ∀ p ∈ (criar_faixa_com_rotacao cc lc kerf y pool).2, p ∈ pool := by
  intro p hp
  exact faixaComRotacaoPassagem_restantes cc lc kerf y pool 0 0 [] p hp

/-- The sheet loop returns a sub-pool. -/
theorem chapaLoop_restantes (cc lc kerf : ℚ) (fuel : ℕ) :
    ∀ (y : ℚ) (pool : List Peca),
      ∀ p ∈ (chapaLoop cc lc kerf fuel y pool).2, p ∈ pool := by
  induction fuel with
  | zero => intro y pool p hp; exact hp
  | succ f ih =>
      intro y pool p hp
      rw [chapaLoop] at hp
      by_cases hg : y < lc ∧ pool ≠ []
      · rw [if_pos hg] at hp
        set r := criar_faixa_otimizada cc lc kerf y pool with hr
        by_cases he : r.1.pecas = []
        · rw [if_pos he] at hp
          set r2 := criar_faixa_com_rotacao cc lc kerf y pool with hr2
          by_cases he2 : r2.1.pecas = []
          · rw [if_pos he2] at hp; exact hp
          · rw [if_neg he2] at hp
            replace hp : p ∈ (chapaLoop cc lc kerf f (y + r2.1.altura + kerf) r2.2).2 := hp
            exact criar_faixa_com_rotacao_restantes cc lc kerf y pool p
              (ih (y + r2.1.altura + kerf) r2.2 p hp)
        · rw [if_neg he] at hp
          replace hp : p ∈ (chapaLoop cc lc kerf f (y + r.1.altura + kerf) r.2).2 := hp
          exact criar_faixa_otimizada_restantes cc lc kerf y pool p
            (ih (y + r.1.altura + kerf) r.2 p hp)
      · rw [if_neg hg] at hp; exact hp

/-- Every strip in a sheet built by `chapaLoop` is the output of one strip
builder call (plain or rotating) on some sub-pool of the starting pool. -/
theorem chapaLoop_faixas_origem (cc lc kerf : ℚ) (fuel : ℕ) :
    ∀ (y : ℚ) (pool : List Peca), ∀ f ∈ (chapaLoop cc lc kerf fuel y pool).1,
      ∃ (y' : ℚ) (pool' : List Peca), (∀ p ∈ pool', p ∈ pool) ∧
        (f = (criar_faixa_otimizada cc lc kerf y' pool').1 ∨
          f = (criar_faixa_com_rotacao cc lc kerf y' pool').1) := by
  induction fuel with
  | zero => intro y pool f hf; exact absurd hf (List.not_mem_nil f)
  | succ n ih =>
      intro y pool f hf
      rw [chapaLoop] at hf
      by_cases hg : y < lc ∧ pool ≠ []
      · rw [if_pos hg] at hf
        set r := criar_faixa_otimizada cc lc kerf y pool with hr
        by_cases he : r.1.pecas = []
        · rw [if_pos he] at hf
          set r2 := criar_faixa_com_rotacao cc lc kerf y pool with hr2
          by_cases he2 : r2.1.pecas = []
          · rw [if_pos he2] at hf; exact absurd hf (List.not_mem_nil f)
          · rw [if_neg he2] at hf
            replace hf : f ∈ r2.1 ::
                (chapaLoop cc lc kerf n (y + r2.1.altura + kerf) r2.2).1 := hf
            rcases List.mem_cons.1 hf with h | h
            · exact ⟨y, pool, fun p hp => hp, Or.inr (by rw [← hr2]; exact h)⟩
            · rcases ih (y + r2.1.altura + kerf) r2.2 f h with ⟨y', pool', hs, ho⟩
              exact ⟨y', pool',
                fun p hp => criar_faixa_com_rotacao_restantes cc lc kerf y pool p (hs p hp),
                ho⟩
        · rw [if_neg he] at hf
          replace hf : f ∈ r.1 ::
              (chapaLoop cc lc kerf n (y + r.1.altura + kerf) r.2).1 := hf
          rcases List.mem_cons.1 hf with h | h
          · exact ⟨y, pool, fun p hp => hp, Or.inl (by rw [← hr]; exact h)⟩
          · rcases ih (y + r.1.altura + kerf) r.2 f h with ⟨y', pool', hs, ho⟩
            exact ⟨y', pool',
              fun p hp => criar_faixa_otimizada_restantes cc lc kerf y pool p (hs p hp),
              ho⟩
      · rw [if_neg hg] at hf; exact absurd hf (List.not_mem_nil f)

/-- Every sheet the optimizer loop returns carries exactly the strips of one
`chapaLoop` run on some sub-pool of the starting pool. -/
theorem otimizarLoop_chapas_origem (cc lc esp kerf : ℚ) (fuel : ℕ) :
    ∀ (numero : ℕ) (pool : List Peca),
      ∀ c ∈ (otimizarLoop cc lc esp kerf fuel numero pool).1,
        ∃ pool' : List Peca, (∀ p ∈ pool', p ∈ pool) ∧
          c.faixas = (chapaLoop cc lc kerf (pool'.length + 1) 0 pool').1 := by
  induction fuel with
  | zero => intro n pool c hc; exact absurd hc (List.not_mem_nil c)
  | succ fuel ih =>
      intro n pool c hc
      rw [otimizarLoop] at hc
      by_cases hp : pool = []
      · rw [if_pos hp] at hc; exact absurd hc (List.not_mem_nil c)
      · rw [if_neg hp] at hc
        replace hc : c ∈ (criar_chapa_otimizada cc lc esp kerf n pool).1 ::
            (otimizarLoop cc lc esp kerf fuel (n + 1)
              (criar_chapa_otimizada cc lc esp kerf n pool).2).1 := hc
        rcases List.mem_cons.1 hc with h | h
        · exact ⟨pool, fun p hp => hp, by rw [h]; rfl⟩
        · rcases ih (n + 1) (criar_chapa_otimizada cc lc esp kerf n pool).2 c h with
            ⟨pool', hs, hfx⟩
          refine ⟨pool', fun p hp => ?_, hfx⟩
          exact chapaLoop_restantes cc lc kerf (pool.length + 1) 0 pool p (hs p hp)

/-! ### C4: rotated parts are never grain-locked -/

/-- The grain invariant for one placed part. -/
def respeitaVeio (q : PecaPosicionada) : Prop :=
  q.rotacionada = true → q.peca.respeitar_veio = false

/-- The defining pass only adds un-rotated parts. -/
theorem faixaPrimeiraPassagem_veio (cc lc kerf y : ℚ) :
    ∀ (pool : List Peca) (a x : ℚ) (acc : List PecaPosicionada),
      (∀ q ∈ acc, respeitaVeio q) →
      ∀ q ∈ (faixaPrimeiraPassagem cc lc kerf y a x acc pool).pecas_faixa,
        respeitaVeio q := by
  intro pool
  induction pool with
  | nil => intro a x acc hacc q hq; exact hacc q hq
  | cons p ps ih =>
      intro a x acc hacc q hq
      rw [faixaPrimeiraPassagem] at hq
      by_cases h1 : y + p.largura > lc
      · rw [if_pos h1] at hq
        exact ih a x acc hacc q hq
      · rw [if_neg h1] at hq
        set a1 := if a = 0 then p.largura else a with ha1
        by_cases h2 : |p.largura - a1| ≤ 5 ∧
            x + (if acc.isEmpty then p.comprimento else p.comprimento + kerf) ≤ cc
        · rw [if_pos h2] at hq
          refine ih a1 (x + p.comprimento + kerf) (acc ++ [⟨p, x, y, false⟩]) ?_ q hq
          intro q' hq'
          rcases List.mem_append.1 hq' with h | h
          · exact hacc q' h
          · have hq'' := List.mem_singleton.1 h
            subst hq''
            intro hrot
            exact nomatch hrot
        · rw [if_neg h2] at hq
          exact ih a1 x acc hacc q hq

/-- The gap-fill pass only adds un-rotated parts. -/
theorem faixaSegundaPassagem_veio (cc kerf y a : ℚ) :
    ∀ (pool : List Peca) (x : ℚ) (acc : List PecaPosicionada),
      (∀ q ∈ acc, respeitaVeio q) →
      ∀ q ∈ (faixaSegundaPassagem cc kerf y a x acc pool).pecas_faixa,
        respeitaVeio q := by
  intro pool
  induction pool with
  | nil => intro x acc hacc q hq; exact hacc q hq
  | cons p ps ih =>
      intro x acc hacc q hq
      rw [faixaSegundaPassagem] at hq
      by_cases h1 : p.comprimento ≤ cc - x ∧ p.largura ≤ a
      · rw [if_pos h1] at hq
        refine ih (x + p.comprimento + kerf) (acc ++ [⟨p, x, y, false⟩]) ?_ q hq
        intro q' hq'
        rcases List.mem_append.1 hq' with h | h
        · exact hacc q' h
        · have hq'' := List.mem_singleton.1 h
          subst hq''
          intro hrot
          exact nomatch hrot
      · rw [if_neg h1] at hq
        exact ih x acc hacc q hq

/-- The rotation pass marks parts rotated only after checking that
`respeitar_veio` is off (app7.py lines 281-284). -/
theorem faixaComRotacaoPassagem_veio (cc lc kerf y : ℚ) :
    ∀ (pool : List Peca) (a x : ℚ) (acc : List PecaPosicionada),
      (∀ q ∈ acc, respeitaVeio q) →
      ∀ q ∈ (faixaComRotacaoPassagem cc lc kerf y a x acc pool).pecas_faixa,
        respeitaVeio q := by
  intro pool
  induction pool with
  | nil => intro a x acc hacc q hq; exact hacc q hq
  | cons p ps ih =>
      intro a x acc hacc q hq
      rw [faixaComRotacaoPassagem] at hq
      by_cases h0 : p.respeitar_veio = true
      · rw [if_pos h0] at hq
        exact ih a x acc hacc q hq
      · rw [if_neg h0] at hq
        by_cases h1 : y + p.comprimento > lc
        · rw [if_pos h1] at hq
          exact ih a x acc hacc q hq
        · rw [if_neg h1] at hq
          set a1 := if a = 0 then p.comprimento else a with ha1
          by_cases h2 : |p.comprimento - a1| ≤ 5 ∧
              x + (if acc.isEmpty then p.largura else p.largura + kerf) ≤ cc
          · rw [if_pos h2] at hq
            refine ih a1 (x + p.largura + kerf) (acc ++ [⟨p, x, y, true⟩]) ?_ q hq
            intro q' hq'
            rcases List.mem_append.1 hq' with h | h
            · exact hacc q' h
            · have hq'' := List.mem_singleton.1 h
              subst hq''
              intro _
              revert h0
              cases p.respeitar_veio
              · intro _; rfl
              · intro h0; exact absurd rfl h0
          · rw [if_neg h2] at hq
            exact ih a1 x acc hacc q hq

/-- Every part placed by the non-rotating strip builder satisfies the grain
invariant (they all come out un-rotated). -/
theorem criar_faixa_otimizada_veio (cc lc kerf y : ℚ) (pool : List Peca) :
    ∀ q ∈ (criar_faixa_otimizada cc lc kerf y pool).1.pecas, respeitaVeio q := by
  intro q hq
  rw [criar_faixa_otimizada] at hq
  set r1 := faixaPrimeiraPassagem cc lc kerf y 0 0 [] pool with hr1
  have hbase : ∀ q' ∈ r1.pecas_faixa, respeitaVeio q' := by
    intro q' hq'
    exact faixaPrimeiraPassagem_veio cc lc kerf y pool 0 0 []
      (fun _ h => absurd h (List.not_mem_nil _)) q' hq'
  by_cases h : r1.x_atual < cc ∧ r1.altura_faixa > 0
  · rw [if_pos h] at hq
    exact faixaSegundaPassagem_veio cc kerf y r1.altura_faixa r1.restantes
      r1.x_atual r1.pecas_faixa hbase q hq
  · rw [if_neg h] at hq
    exact hbase q hq

/-- Every part placed by the rotating strip builder satisfies the grain
invariant. -/
theorem criar_faixa_com_rotacao_veio (cc lc kerf y : ℚ) (pool : List Peca) :
    ∀ q ∈ (criar_faixa_com_rotacao cc lc kerf y pool).1.pecas, respeitaVeio q := by
  intro q hq
  exact faixaComRotacaoPassagem_veio cc lc kerf y pool 0 0 []
    (fun _ h => absurd h (List.not_mem_nil _)) q hq

/-- C4: the grain invariant.  For every input (any sheet geometry, kerf,
mode and parts) and any fresh optimizer instance, every placed part in every
returned sheet that is rotated belongs to a part with `respeitar_veio`
false: the rotation fallback skips grain-locked parts, and both other passes
place parts un-rotated. -/
theorem rotacao_respeita_veio (o : OtimizadorCortes) (pecas : List Peca)
    (fuel : ℕ) (h0 : o.chapas = []) :
    ∀ c ∈ (o.otimizar pecas fuel).1, ∀ f ∈ c.faixas, ∀ p ∈ f.pecas,
      p.rotacionada = true → p.peca.respeitar_veio = false := by
  intro c hc f hf p hp hrot
  have hsplit : (o.otimizar pecas fuel).1 = o.chapas ++
      (otimizarLoop o.comprimento_chapa o.largura_chapa o.espessura o.kerf fuel 1
        (ordenarPorAreaDesc (expandirPecas pecas))).1 := rfl
  rw [hsplit, h0, List.nil_append] at hc
  rcases otimizarLoop_chapas_origem o.comprimento_chapa o.largura_chapa o.espessura
    o.kerf fuel 1 _ c hc with ⟨pool', _, hfx⟩
  rw [hfx] at hf
  rcases chapaLoop_faixas_origem o.comprimento_chapa o.largura_chapa o.kerf
    (pool'.length + 1) 0 pool' f hf with ⟨y', pool'', _, ho | ho⟩
  · exact criar_faixa_otimizada_veio o.comprimento_chapa o.largura_chapa o.kerf
      y' pool'' p (ho ▸ hp) hrot
  · exact criar_faixa_com_rotacao_veio o.comprimento_chapa o.largura_chapa o.kerf
      y' pool'' p (ho ▸ hp) hrot

/-- Witness for `rotacao_respeita_veio`: the rotated part the optimizer
produces on the 1000×300mm sheet is indeed not grain-locked. -/
theorem rotacao_respeita_veio_witness :
    (⟨pecaRotavel, 0, 0, true⟩ : PecaPosicionada).peca.respeitar_veio = false :=
  rotacao_respeita_veio otimTravado [pecaRotavel] 1 rfl
    ⟨1, 1000, 300, 15, 3, [⟨0, 250, [⟨pecaRotavel, 0, 0, true⟩]⟩]⟩ (by decide)
    ⟨0, 250, [⟨pecaRotavel, 0, 0, true⟩]⟩ (by decide)
    ⟨pecaRotavel, 0, 0, true⟩ (by decide) rfl

/-! ### C6: strip membership and the 5mm tolerance -/

/-- Invariant of the defining pass: before any part survives the width
check, nothing has been placed (`altura_faixa = 0`); afterwards a nonzero
height is fixed once and for all, and every placed part's effective width is
at most that height plus the 5mm tolerance. -/
theorem faixaPrimeiraPassagem_altura (cc lc kerf y : ℚ) :
    ∀ (pool : List Peca), (∀ p ∈ pool, 0 < p.largura) →
      ∀ (a x : ℚ) (acc : List PecaPosicionada),
        (a = 0 ∧ acc = []) ∨ (a ≠ 0 ∧ ∀ q ∈ acc, q.largura_final ≤ a + 5) →
        (∀ q ∈ (faixaPrimeiraPassagem cc lc kerf y a x acc pool).pecas_faixa,
          q.largura_final ≤
            (faixaPrimeiraPassagem cc lc kerf y a x acc pool).altura_faixa + 5) ∧
        (a ≠ 0 → (faixaPrimeiraPassagem cc lc kerf y a x acc pool).altura_faixa = a) := by
  intro pool
  induction pool with
  | nil =>
      intro _ a x acc hinv
      refine ⟨?_, fun _ => rfl⟩
      intro q hq
      rcases hinv with ⟨_, hacc⟩ | ⟨_, hacc⟩
      · subst hacc; exact absurd hq (List.not_mem_nil q)
      · exact hacc q hq
  | cons p ps ih =>
      intro hpos a x acc hinv
      have hpos' : ∀ p' ∈ ps, 0 < p'.largura :=
        fun p' h => hpos p' (List.mem_cons_of_mem p h)
      have hppos : 0 < p.largura := hpos p (List.mem_cons_self p ps)
      rw [faixaPrimeiraPassagem]
      by_cases h1 : y + p.largura > lc
      · rw [if_pos h1]
        exact ih hpos' a x acc hinv
      · rw [if_neg h1]
        set a1 := if a = 0 then p.largura else a with ha1
        have ha1nz : a1 ≠ 0 := by
          rw [ha1]
          split
          · exact ne_of_gt hppos
          · next h => exact h
        have ha1a : a ≠ 0 → a1 = a := fun h => by rw [ha1, if_neg h]
        have hinv1 : a1 ≠ 0 ∧ ∀ q ∈ acc, q.largura_final ≤ a1 + 5 := by
          rcases hinv with ⟨_, hacc⟩ | ⟨ha, hacc⟩
          · subst hacc
            exact ⟨ha1nz, fun q hq => absurd hq (List.not_mem_nil q)⟩
          · exact ⟨ha1nz, fun q hq => by rw [ha1a ha]; exact hacc q hq⟩
        by_cases h2 : |p.largura - a1| ≤ 5 ∧
            x + (if acc.isEmpty then p.comprimento else p.comprimento + kerf) ≤ cc
        · rw [if_pos h2]
          have hplaced : ∀ q ∈ acc ++ [⟨p, x, y, false⟩], q.largura_final ≤ a1 + 5 := by
            intro q hq
            rcases List.mem_append.1 hq with h | h
            · exact hinv1.2 q h
            · have hq' := List.mem_singleton.1 h
              subst hq'
              show p.largura ≤ a1 + 5
              have := (abs_le.1 h2.1).2
              linarith
          have hres := ih hpos' a1 (x + p.comprimento + kerf)
            (acc ++ [⟨p, x, y, false⟩]) (Or.inr ⟨ha1nz, hplaced⟩)
          exact ⟨hres.1, fun ha => by rw [hres.2 ha1nz, ha1a ha]⟩
        · rw [if_neg h2]
          have hres := ih hpos' a1 x acc (Or.inr hinv1)
          exact ⟨hres.1, fun ha => by rw [hres.2 ha1nz, ha1a ha]⟩

/-- The gap-fill pass keeps the bound: its own parts obey the stronger
`largura ≤ altura_faixa`, so certainly the tolerance bound. -/
theorem faixaSegundaPassagem_altura (cc kerf y a : ℚ) :
    ∀ (pool : List Peca) (x : ℚ) (acc : List PecaPosicionada),
      (∀ q ∈ acc, q.largura_final ≤ a + 5) →
      ∀ q ∈ (faixaSegundaPassagem cc kerf y a x acc pool).pecas_faixa,
        q.largura_final ≤ a + 5 := by
  intro pool
  induction pool with
  | nil => intro x acc hacc q hq; exact hacc q hq
  | cons p ps ih =>
      intro x acc hacc q hq
      rw [faixaSegundaPassagem] at hq
      by_cases h1 : p.comprimento ≤ cc - x ∧ p.largura ≤ a
      · rw [if_pos h1] at hq
        refine ih (x + p.comprimento + kerf) (acc ++ [⟨p, x, y, false⟩]) ?_ q hq
        intro q' hq'
        rcases List.mem_append.1 hq' with h | h
        · exact hacc q' h
        · have hq'' := List.mem_singleton.1 h
          subst hq''
          show p.largura ≤ a + 5
          linarith [h1.2]
      · rw [if_neg h1] at hq
        exact ih x acc hacc q hq

/-- Invariant of the rotation pass, with width and length swapped: every
placed part's effective width (its original length) is at most the strip
height plus the tolerance. -/
theorem faixaComRotacaoPassagem_altura (cc lc kerf y : ℚ) :
    ∀ (pool : List Peca), (∀ p ∈ pool, 0 < p.comprimento) →
      ∀ (a x : ℚ) (acc : List PecaPosicionada),
        (a = 0 ∧ acc = []) ∨ (a ≠ 0 ∧ ∀ q ∈ acc, q.largura_final ≤ a + 5) →
        (∀ q ∈ (faixaComRotacaoPassagem cc lc kerf y a x acc pool).pecas_faixa,
          q.largura_final ≤
            (faixaComRotacaoPassagem cc lc kerf y a x acc pool).altura_faixa + 5) ∧
        (a ≠ 0 → (faixaComRotacaoPassagem cc lc kerf y a x acc pool).altura_faixa = a) := by
  intro pool
  induction pool with
  | nil =>
      intro _ a x acc hinv
      refine ⟨?_, fun _ => rfl⟩
      intro q hq
      rcases hinv with ⟨_, hacc⟩ | ⟨_, hacc⟩
      · subst hacc; exact absurd hq (List.not_mem_nil q)
      · exact hacc q hq
  | cons p ps ih =>
      intro hpos a x acc hinv
      have hpos' : ∀ p' ∈ ps, 0 < p'.comprimento :=
        fun p' h => hpos p' (List.mem_cons_of_mem p h)
      have hppos : 0 < p.comprimento := hpos p (List.mem_cons_self p ps)
      rw [faixaComRotacaoPassagem]
      by_cases h0 : p.respeitar_veio = true
      · rw [if_pos h0]
        exact ih hpos' a x acc hinv
      · rw [if_neg h0]
        by_cases h1 : y + p.comprimento > lc
        · rw [if_pos h1]
          exact ih hpos' a x acc hinv
        · rw [if_neg h1]
          set a1 := if a = 0 then p.comprimento else a with ha1
          have ha1nz : a1 ≠ 0 := by
            rw [ha1]
            split
            · exact ne_of_gt hppos
            · next h => exact h
          have ha1a : a ≠ 0 → a1 = a := fun h => by rw [ha1, if_neg h]
          have hinv1 : a1 ≠ 0 ∧ ∀ q ∈ acc, q.largura_final ≤ a1 + 5 := by
            rcases hinv with ⟨_, hacc⟩ | ⟨ha, hacc⟩
            · subst hacc
              exact ⟨ha1nz, fun q hq => absurd hq (List.not_mem_nil q)⟩
            · exact ⟨ha1nz, fun q hq => by rw [ha1a ha]; exact hacc q hq⟩
          by_cases h2 : |p.comprimento - a1| ≤ 5 ∧
              x + (if acc.isEmpty then p.largura else p.largura + kerf) ≤ cc
          · rw [if_pos h2]
            have hplaced : ∀ q ∈ acc ++ [⟨p, x, y, true⟩],
                q.largura_final ≤ a1 + 5 := by
              intro q hq
              rcases List.mem_append.1 hq with h | h
              · exact hinv1.2 q h
              · have hq' := List.mem_singleton.1 h
                subst hq'
                show p.comprimento ≤ a1 + 5
                have := (abs_le.1 h2.1).2
                linarith
            have hres := ih hpos' a1 (x + p.largura + kerf)
              (acc ++ [⟨p, x, y, true⟩]) (Or.inr ⟨ha1nz, hplaced⟩)
            exact ⟨hres.1, fun ha => by rw [hres.2 ha1nz, ha1a ha]⟩
          · rw [if_neg h2]
            have hres := ih hpos' a1 x acc (Or.inr hinv1)
            exact ⟨hres.1, fun ha => by rw [hres.2 ha1nz, ha1a ha]⟩

/-- Every part the non-rotating strip builder places has effective width at
most the strip's recorded height plus the 5mm tolerance (assuming positive
part widths). -/
theorem criar_faixa_otimizada_altura (cc lc kerf y : ℚ) (pool : List Peca)
    (hpos : ∀ p ∈ pool, 0 < p.largura) :
    ∀ q ∈ (criar_faixa_otimizada cc lc kerf y pool).1.pecas,
      q.largura_final ≤ (criar_faixa_otimizada cc lc kerf y pool).1.altura + 5 := by
  intro q hq
  rw [criar_faixa_otimizada] at hq ⊢
  set r1 := faixaPrimeiraPassagem cc lc kerf y 0 0 [] pool with hr1
  have h1 := faixaPrimeiraPassagem_altura cc lc kerf y pool hpos 0 0 []
    (Or.inl ⟨rfl, rfl⟩)
  by_cases h : r1.x_atual < cc ∧ r1.altura_faixa > 0
  · rw [if_pos h] at hq ⊢
    show q.largura_final ≤ r1.altura_faixa + 5
    exact faixaSegundaPassagem_altura cc kerf y r1.altura_faixa r1.restantes
      r1.x_atual r1.pecas_faixa h1.1 q hq
  · rw [if_neg h] at hq ⊢
    show q.largura_final ≤ r1.altura_faixa + 5
    exact h1.1 q hq

/-- Every part the rotating strip builder places has effective width at most
the strip's recorded height plus the 5mm tolerance (assuming positive part
lengths). -/
theorem criar_faixa_com_rotacao_altura (cc lc kerf y : ℚ) (pool : List Peca)
    (hpos : ∀ p ∈ pool, 0 < p.comprimento) :
    ∀ q ∈ (criar_faixa_com_rotacao cc lc kerf y pool).1.pecas,
      q.largura_final ≤ (criar_faixa_com_rotacao cc lc kerf y pool).1.altura + 5 := by
  intro q hq
  have h1 := faixaComRotacaoPassagem_altura cc lc kerf y pool hpos 0 0 []
    (Or.inl ⟨rfl, rfl⟩)
  exact h1.1 q hq

/-- Membership after the stable insertion: an element is the inserted part
or was already in the list. -/
theorem mem_insereOrdenadaPorArea (p : Peca) :
    ∀ (l : List Peca) (q : Peca), q ∈ insereOrdenadaPorArea p l → q = p ∨ q ∈ l := by
  intro l
  induction l with
  | nil =>
      intro q hq
      exact Or.inl (List.mem_singleton.1 hq)
  | cons r rs ih =>
      intro q hq
      rw [insereOrdenadaPorArea] at hq
      by_cases h : r.area > p.area
      · rw [if_pos h] at hq
        rcases List.mem_cons.1 hq with h' | h'
        · exact Or.inr (h' ▸ List.mem_cons_self r rs)
        · rcases ih q h' with h'' | h''
          · exact Or.inl h''
          · exact Or.inr (List.mem_cons_of_mem r h'')
      · rw [if_neg h] at hq
        rcases List.mem_cons.1 hq with h' | h'
        · exact Or.inl h'
        · exact Or.inr h'

/-- Sorting by area keeps only elements of the input list. -/
theorem mem_ordenarPorAreaDesc :
    ∀ (l : List Peca) (q : Peca), q ∈ ordenarPorAreaDesc l → q ∈ l := by
  intro l
  induction l with
  | nil => intro q hq; exact absurd hq (List.not_mem_nil q)
  | cons p ps ih =>
      intro q hq
      rcases mem_insereOrdenadaPorArea p (ordenarPorAreaDesc ps) q hq with h | h
      · exact h ▸ List.mem_cons_self p ps
      · exact List.mem_cons_of_mem p (ih q h)

/-- Quantity expansion keeps only copies of input parts. -/
theorem mem_expandirPecas :
    ∀ (l : List Peca) (q : Peca), q ∈ expandirPecas l → q ∈ l := by
  intro l q hq
  rw [expandirPecas] at hq
  rcases List.mem_flatten.1 hq with ⟨s, hs, hqs⟩
  rcases List.mem_map.1 hs with ⟨p, hp, rfl⟩
  rcases List.eq_of_mem_replicate hqs with rfl
  exact hp

/-- C6 amended: on a fresh optimizer instance and parts with positive
dimensions, every placed part's effective width is at most its strip's
height plus the 5mm tolerance.  (The two-sided bound of the original claim
fails: the gap-fill pass only requires width ≤ strip height, see
`tolerancia_contraexemplo`.) -/
theorem faixa_tolerancia_superior (o : OtimizadorCortes) (pecas : List Peca)
    (fuel : ℕ) (h0 : o.chapas = [])
    (hpos : ∀ p ∈ pecas, 0 < p.comprimento ∧ 0 < p.largura) :
    ∀ c ∈ (o.otimizar pecas fuel).1, ∀ f ∈ c.faixas, ∀ q ∈ f.pecas,
      q.largura_final ≤ f.altura + 5 := by
  intro c hc f hf q hq
  have hsplit : (o.otimizar pecas fuel).1 = o.chapas ++
      (otimizarLoop o.comprimento_chapa o.largura_chapa o.espessura o.kerf fuel 1
        (ordenarPorAreaDesc (expandirPecas pecas))).1 := rfl
  rw [hsplit, h0, List.nil_append] at hc
  have hpool : ∀ p ∈ ordenarPorAreaDesc (expandirPecas pecas),
      0 < p.comprimento ∧ 0 < p.largura := fun p hp =>
    hpos p (mem_expandirPecas pecas p (mem_ordenarPorAreaDesc (expandirPecas pecas) p hp))
  rcases otimizarLoop_chapas_origem o.comprimento_chapa o.largura_chapa o.espessura
    o.kerf fuel 1 _ c hc with ⟨pool', hsub, hfx⟩
  rw [hfx] at hf
  rcases chapaLoop_faixas_origem o.comprimento_chapa o.largura_chapa o.kerf
    (pool'.length + 1) 0 pool' f hf with ⟨y', pool'', hsub2, ho | ho⟩
  · have hpos'' : ∀ p ∈ pool'', 0 < p.largura :=
      fun p hp => (hpool p (hsub p (hsub2 p hp))).2
    rw [ho]
    exact criar_faixa_otimizada_altura o.comprimento_chapa o.largura_chapa o.kerf
      y' pool'' hpos'' q (ho ▸ hq)
  · have hpos'' : ∀ p ∈ pool'', 0 < p.comprimento :=
      fun p hp => (hpool p (hsub p (hsub2 p hp))).1
    rw [ho]
    exact criar_faixa_com_rotacao_altura o.comprimento_chapa o.largura_chapa o.kerf
      y' pool'' hpos'' q (ho ▸ hq)

/-- Witness for `faixa_tolerancia_superior`: the gap-filled 90×100mm part of
the tolerance scenario sits in the 300mm strip and 100 ≤ 300 + 5. -/
theorem faixa_tolerancia_superior_witness :
    (⟨pecaPequena, 903, 0, false⟩ : PecaPosicionada).largura_final ≤
      (⟨0, 300, [⟨pecaDefinidora, 0, 0, false⟩, ⟨pecaPequena, 903, 0, false⟩]⟩ :
        Faixa).altura + 5 :=
  faixa_tolerancia_superior otimTolerancia [pecaDefinidora, pecaPequena] 2 rfl
    (by decide)
    ⟨1, 1000, 1000, 15, 3,
      [⟨0, 300, [⟨pecaDefinidora, 0, 0, false⟩, ⟨pecaPequena, 903, 0, false⟩]⟩]⟩
    (by decide)
    ⟨0, 300, [⟨pecaDefinidora, 0, 0, false⟩, ⟨pecaPequena, 903, 0, false⟩]⟩
    (by decide)
    ⟨pecaPequena, 903, 0, false⟩ (by decide)
